import Mathlib

/-!
Shallow embedding of the `kanpai` orchestration core
(`src/kanpai/app.py`, `src/kanpai/base_kani.py`,
`src/kanpai/mixins/delegate_and_wait.py`) for checking the
natural-language specification against the code.

Conventions used throughout:
* Python dicts keyed by helper name are embedded as association lists
  `List (String × _)` with dict-update/removal helpers mirroring
  CPython's insertion-order semantics.
* Awaiting is pure: an in-flight `asyncio.Task` is represented by the
  value it will eventually yield; the genuinely nondeterministic parts
  of `asyncio.wait` (which completed future `done.pop()` picks, and the
  iteration order of the returned `done` set) enter as explicit
  parameters constrained by hypotheses.
* Event payloads keep only the fields the claims mention; the
  originating agent id (a constant `self.id` in every source call site
  modelled here) is elided.
-/

/-- `RunState` from `kanpai/state.py` (referenced by `base_kani.py`). -/
inductive RunState where
  | STOPPED
  | RUNNING
  | WAITING
  | ERRORED
deriving DecidableEq, Repr

/-- Events dispatched on the bus (`kanpai/events.py` payloads, trimmed to
the fields the claims mention; agent ids elided). -/
inductive Ev where
  | stateChange (state : RunState)
  | tokensUsed (prompt_tokens completion_tokens : Nat)
  | kaniSpawn (tag : Nat)
  | kaniMessage (tag : Nat)
deriving DecidableEq, Repr

/-- The per-agent mutable facts touched by `BaseKani.set_state`
(`base_kani.py` lines 70-81): the current run state, plus the ordered
list of events this agent has dispatched via `self.app.dispatch`. -/
structure KaniSt where
  state : RunState
  events : List Ev
deriving DecidableEq, Repr

/-- Entry half of the `set_state` context manager (`base_kani.py`
lines 73-75): record `old_state = self.state`, set `self.state = state`,
dispatch a `KaniStateChange` carrying the new state. -/
def setStateEnter (state : RunState) (m : KaniSt) : RunState × KaniSt :=
  (m.state, ⟨state, m.events ++ [Ev.stateChange state]⟩)

/-- Exit half of the `set_state` context manager (`base_kani.py`
lines 78-81, the `finally` block): if the current state is not
`ERRORED`, restore the recorded previous state and dispatch a second
`KaniStateChange`; otherwise leave the state (and event stream) alone. -/
def setStateExit (old : RunState) (m : KaniSt) : KaniSt :=
  if m.state ≠ RunState.ERRORED then ⟨old, m.events ++ [Ev.stateChange old]⟩ else m

/-- The whole `with self.set_state(s): body` block. The body returns the
mutated agent facts together with a result of type `α`; instantiating
`α` with an `Except` type models a body that raises — the exit half runs
either way, exactly as a Python `finally` does. -/
def withState (s : RunState) (body : KaniSt → KaniSt × α) (m : KaniSt) : KaniSt × α :=
  let (old, m1) := setStateEnter s m
  let (m2, a) := body m1
  (setStateExit old m2, a)

/-- `ChatRole` from the kani message model. -/
inductive ChatRole where
  | SYSTEM
  | USER
  | ASSISTANT
  | FUNCTION
deriving DecidableEq, Repr

/-- A chat message, trimmed to the fields `last_user_message` inspects. -/
structure ChatMessage where
  role : ChatRole
  content : Option String
deriving DecidableEq, Repr

/-- `BaseKani.last_user_message` (`base_kani.py` lines 66-68):
`next((m for m in self.chat_history if m.role == ChatRole.USER), None)`.
`chat_history` is ordered oldest-first, so this scans forward and yields
the FIRST matching message. -/
def last_user_message (chat_history : List ChatMessage) : Option ChatMessage :=
  chat_history.find? (fun m => m.role == ChatRole.USER)

/-- Modelled from the spec sentence for `lastUserMessage()`: "returns the
most recent message authored by the user role in this node's history, or
none" — i.e. the LAST matching message of the oldest-first history. -/
def lastUserMessageSpec (chat_history : List ChatMessage) : Option ChatMessage :=
  chat_history.reverse.find? (fun m => m.role == ChatRole.USER)

/-- One iteration of the body of `Kanpai._dispatch_task` (`app.py`
lines 46-55) after `event = await self.event_queue.get()` succeeds: the
remaining body is the single comment `# todo get listeners, call them`,
so the dequeued event is dropped. `app.py` defines no listener registry
and no subscribe operation, so the list of (listener, event) invocations
produced for the event is empty. -/
def dispatchBodyListenerCalls (e : Ev) : List (Nat × Ev) :=
  match e with
  | _ => []

/-- The invocations produced by the dispatch loop while draining a queue
of published events in FIFO order (`asyncio.Queue` order). -/
def dispatchDrain : List Ev → List (Nat × Ev)
  | [] => []
  | e :: rest => dispatchBodyListenerCalls e ++ dispatchDrain rest

/-- C1: the claim says the dispatch loop "invokes every listener
registered before that event's dispatch, in registration order" with
fault isolation. The code's dispatch loop dequeues each event and then
does nothing with it (`app.py` line 51 is `# todo get listeners, call
them`; no subscribe/listener mechanism exists anywhere in `app.py`),
contradicting the `dispatch` docstring "Dispatch an event to all
listeners". Formally: draining any queue of published events produces no
listener invocation at all. -/
theorem kanpai_dispatch_no_listener_calls (queue : List Ev) :
    dispatchDrain queue = [] := by
  induction queue with
  | nil => rfl
  | cons e rest ih => simp [dispatchDrain, dispatchBodyListenerCalls, ih]

/-- C3: the claim (and the property's own name) say `last_user_message`
returns the MOST RECENT user-role message. On the concrete history
[user "a", assistant "b", user "c"] the code returns the user message
"a" (it scans the oldest-first history forward with `next(...)`), while
the most recent user message is "c". -/
theorem last_user_message_returns_first_not_most_recent :
    last_user_message
        [⟨ChatRole.USER, some ("a")⟩, ⟨ChatRole.ASSISTANT, some ("b")⟩,
         ⟨ChatRole.USER, some ("c")⟩] = some ⟨ChatRole.USER, some ("a")⟩
    ∧ lastUserMessageSpec
        [⟨ChatRole.USER, some ("a")⟩, ⟨ChatRole.ASSISTANT, some ("b")⟩,
         ⟨ChatRole.USER, some ("c")⟩] = some ⟨ChatRole.USER, some ("c")⟩
    ∧ (some (ChatMessage.mk ChatRole.USER (some ("a"))) ≠
        some (ChatMessage.mk ChatRole.USER (some ("c")))) := by
  refine ⟨rfl, rfl, by decide⟩

/-- C2: scoped state transitions. (1) On entry the previous state is
recorded, the new state applied and a state-change event emitted.
(2) On exit with a non-`ERRORED` state, the previous state is restored
and a second state-change event emitted. (3) On exit with state
`ERRORED`, the state stays `ERRORED` and no event is emitted. (4) The
exit half runs on every return path of the body, and the body's result
(or exception) passes through unchanged. (5) Nested scopes restore in
strict LIFO order: entering `RUNNING` then a nested `WAITING` yields the
trace RUNNING, WAITING, back to RUNNING, back to the original state. -/
theorem set_state_scoped_transition (s : RunState) (m m2 : KaniSt) (old : RunState) :
    (setStateEnter s m = (m.state, ⟨s, m.events ++ [Ev.stateChange s]⟩))
    ∧ (m2.state ≠ RunState.ERRORED →
        setStateExit old m2 = ⟨old, m2.events ++ [Ev.stateChange old]⟩)
    ∧ (m2.state = RunState.ERRORED → setStateExit old m2 = m2)
    ∧ (∀ (body : KaniSt → KaniSt × Except Unit Unit),
        withState s body m =
          (setStateExit m.state (body ⟨s, m.events ++ [Ev.stateChange s]⟩).1,
           (body ⟨s, m.events ++ [Ev.stateChange s]⟩).2))
    ∧ ((withState RunState.RUNNING
          (fun mA => withState RunState.WAITING (fun mB => (mB, ())) mA) m).1 =
        ⟨m.state, m.events ++ [Ev.stateChange RunState.RUNNING,
          Ev.stateChange RunState.WAITING, Ev.stateChange RunState.RUNNING,
          Ev.stateChange m.state]⟩) := by
  refine ⟨rfl, ?_, ?_, ?_, ?_⟩
  · intro h
    simp [setStateExit, h]
  · intro h
    simp [setStateExit, h]
  · intro body
    rfl
  · simp [withState, setStateEnter, setStateExit]

/-- Witness for C2: instantiates the theorem at `RUNNING`/`STOPPED` and
discharges the non-`ERRORED` hypothesis of the restoration conjunct. -/
theorem set_state_scoped_transition_witness :
    setStateExit RunState.STOPPED ⟨RunState.RUNNING, []⟩ =
      ⟨RunState.STOPPED, [Ev.stateChange RunState.STOPPED]⟩ :=
  (set_state_scoped_transition RunState.RUNNING ⟨RunState.STOPPED, []⟩
      ⟨RunState.RUNNING, []⟩ RunState.STOPPED).2.1 (by decide)

/-- Fuel-indexed longest-common-subsequence length (structural recursion
so concrete instances reduce in the kernel); fuel ≥ sum of lengths is
always sufficient. -/
def lcsLenFuel : Nat → List Char → List Char → Nat
  | 0, _, _ => 0
  | _ + 1, [], _ => 0
  | _ + 1, _, [] => 0
  | fuel + 1, a :: as, b :: bs =>
    if a = b then lcsLenFuel fuel as bs + 1
    else max (lcsLenFuel fuel (a :: as) bs) (lcsLenFuel fuel as (b :: bs))

/-- Longest common subsequence length of two strings. -/
def lcsLen (a b : String) : Nat :=
  lcsLenFuel (a.data.length + b.data.length) a.data b.data

/-- `rapidfuzz.fuzz.ratio(a, b) > 80`, with the ratio taken at its exact
rational value: `ratio = 100 * (lensum - indel_dist) / lensum` where the
InDel distance is `lensum - 2 * LCS(a, b)`, i.e. `ratio = 200 * LCS /
lensum`; rapidfuzz defines the ratio of two empty strings as 100.
`ratio > 80` is then `200 * LCS > 80 * lensum` (and at the used inputs
the exact comparison agrees with the float one computed by rapidfuzz). -/
def ratioGtEighty (a b : String) : Bool :=
  let lensum := a.data.length + b.data.length
  if lensum = 0 then true else 200 * lcsLen a b > 80 * lensum

/-- Modelled from the claim's words: the same fuzzy ratio compared with
"at least 80%" (`ratio ≥ 80`) instead of the code's strict `> 80`. -/
def ratioGeEighty (a b : String) : Bool :=
  let lensum := a.data.length + b.data.length
  if lensum = 0 then true else 200 * lcsLen a b ≥ 80 * lensum

/-- Dict update `d[k] = v` on an insertion-ordered association list:
replaces the value in place if the key is present, else appends. -/
def dictSet (k v : String) : List (String × String) → List (String × String)
  | [] => [(k, v)]
  | (k', v') :: rest =>
    if k' = k then (k, v) :: rest else (k', v') :: dictSet k v rest

/-- Dict removal `d.pop(k)`'s effect on the insertion-ordered
association list (drops the binding of `k`, if any). -/
def dictRemove (k : String) : List (String × String) → List (String × String)
  | [] => []
  | (k', v') :: rest =>
    if k' = k then rest else (k', v') :: dictRemove k rest

/-- Dict-key insertion for `self.helpers[name] = helper` where only the
key set matters for the claims: keeps the existing key in place,
otherwise appends. -/
def namesInsert (n : String) (l : List String) : List String :=
  if n ∈ l then l else l ++ [n]

/-- The state a `DelegateWaitMixin` instance carries
(`delegate_and_wait.py` lines 16-19), on top of the `BaseKani` facts:
`helpers` maps helper name to the helper node (we keep the names, in
dict insertion order); `helper_futures` ("pending") maps helper name to
the in-flight task, embedded as the `(joined_text)` value the task will
eventually yield (its yielded name equals its key). -/
structure DWState where
  k : KaniSt
  helpers : List String
  pending : List (String × String)
deriving DecidableEq, Repr

/-- `setStateEnter` lifted to the mixin state. -/
def dwEnter (s : RunState) (st : DWState) : RunState × DWState :=
  let (old, k') := setStateEnter s st.k
  (old, { st with k := k' })

/-- `setStateExit` lifted to the mixin state. -/
def dwExit (old : RunState) (st : DWState) : DWState :=
  { st with k := setStateExit old st.k }

/-- The loop-guard refusal text (`delegate_and_wait.py` lines 51-54). -/
def guidanceMsg : String :=
  "You shouldn\x27t delegate the entire task to a helper. Try breaking it up into smaller steps and call this again."

/-- The busy-helper refusal text (`delegate_and_wait.py` lines 59-62);
`{who!r}` rendered as the name in single quotes. -/
def busyMsg (w : String) : String :=
  "\x27" ++ w ++ "\x27 is currently busy. You can leave `who` empty to find a new available helper or wait on \x27" ++ w ++ "\x27 and retry."

/-- The acknowledgment text (`delegate_and_wait.py` line 78). -/
def ackMsg (n : String) : String :=
  "\x27" ++ n ++ "\x27 is helping you with this request."

/-- `DelegateWaitMixin.delegate` (`delegate_and_wait.py` lines 25-78).
`lum` is the value of `self.last_user_message` (its `.content`);
`freshName` is the name of the node `create_delegate_kani()` would
return; `taskResult` is the joined text the launched `_task()` will
eventually yield for whichever helper runs. Returns the reply string and
the updated mixin state. Mirrors the source order: loop guard first,
then helper resolution (`if who and who in self.helpers`, with the
busy check inside), then registration of the task under the helper's
name and the acknowledgment. -/
def delegate (instructions : String) (who lum : Option String)
    (freshName taskResult : String) (st : DWState) : String × DWState :=
  if lum.elim false (fun goal => ratioGtEighty instructions goal) then
    (guidanceMsg, st)
  else
    match who with
    | some w =>
      if w != "" && st.helpers.contains w then
        if (st.pending.map Prod.fst).contains w then
          (busyMsg w, st)
        else
          (ackMsg w, { st with pending := dictSet w taskResult st.pending })
      else
        (ackMsg freshName,
         { st with helpers := namesInsert freshName st.helpers,
                   pending := dictSet freshName taskResult st.pending })
    | none =>
      (ackMsg freshName,
       { st with helpers := namesInsert freshName st.helpers,
                 pending := dictSet freshName taskResult st.pending })

/-- C4 counterexample: the claim says instructions AT LEAST 80% similar
to the last user message are refused. The code refuses only on ratio
STRICTLY ABOVE 80 (`fuzz.ratio(...) > 80`). At instructions "aaaab"
against last user message "aaaac" the fuzzy ratio is exactly 80
(LCS 4, lengths 5+5, ratio 200*4/10 = 80): the call is NOT refused —
starting from an empty delegation state it returns the acknowledgment
and registers a new helper and a new unit of work. -/
theorem delegate_guard_at_exact_eighty_cex :
    ratioGeEighty ("aaaab") ("aaaac") = true
    ∧ ratioGtEighty ("aaaab") ("aaaac") = false
    ∧ (delegate ("aaaab") none (some ("aaaac")) ("h1") ("res")
        ⟨⟨RunState.STOPPED, []⟩, [], []⟩).1 = ackMsg ("h1")
    ∧ (delegate ("aaaab") none (some ("aaaac")) ("h1") ("res")
        ⟨⟨RunState.STOPPED, []⟩, [], []⟩).2.pending = [(("h1"), ("res"))]
    ∧ (delegate ("aaaab") none (some ("aaaac")) ("h1") ("res")
        ⟨⟨RunState.STOPPED, []⟩, [], []⟩).2.helpers = [("h1")]
    ∧ ackMsg ("h1") ≠ guidanceMsg := by
  refine ⟨by decide, by decide, ?_, ?_, ?_, by decide⟩ <;> rfl

/-- C4 (amended): when the requesting agent's last user message exists
and the instructions are STRICTLY MORE than 80% similar to it under the
fuzzy ratio, `delegate` returns the break-it-up guidance and leaves the
whole mixin state (helpers and pending included) unchanged, for any
`who`. -/
theorem delegate_guard_strict_gt (st : DWState) (instructions goal : String)
    (who : Option String) (freshName taskResult : String)
    (h : ratioGtEighty instructions goal = true) :
    delegate instructions who (some goal) freshName taskResult st
      = (guidanceMsg, st) := by
  simp [delegate, h]

/-- Witness for C4's amended theorem: "aaaaaa" vs "aaaaab" has ratio
1000/12 ≈ 83.3 > 80, so the guard fires. -/
theorem delegate_guard_strict_gt_witness :
    delegate ("aaaaaa") (some ("bob")) (some ("aaaaab")) ("h1") ("res")
        ⟨⟨RunState.STOPPED, []⟩, [("bob")], []⟩
      = (guidanceMsg, ⟨⟨RunState.STOPPED, []⟩, [("bob")], []⟩) :=
  delegate_guard_strict_gt ⟨⟨RunState.STOPPED, []⟩, [("bob")], []⟩
    ("aaaaaa") ("aaaaab") (some ("bob")) ("h1") ("res") (by decide)

/-- C7 counterexample: the claim says every `delegate` call naming a
busy helper returns the busy-refusal message. But the loop guard runs
first: with instructions identical to the last user message (ratio 100)
and `who = "bob"` where "bob" is an existing, busy helper, the call
returns the break-it-up guidance, not the busy message (state still
unchanged). -/
theorem delegate_busy_helper_cex :
    (("bob") ∈ (⟨⟨RunState.RUNNING, []⟩, [("bob")], [(("bob"), ("rb"))]⟩ : DWState).helpers)
    ∧ (("bob") ∈ ((⟨⟨RunState.RUNNING, []⟩, [("bob")], [(("bob"), ("rb"))]⟩ : DWState).pending.map Prod.fst))
    ∧ (delegate ("task") (some ("bob")) (some ("task")) ("fresh") ("t")
        ⟨⟨RunState.RUNNING, []⟩, [("bob")], [(("bob"), ("rb"))]⟩).1 = guidanceMsg
    ∧ guidanceMsg ≠ busyMsg ("bob") := by
  refine ⟨by decide, by decide, ?_, by decide⟩
  rfl

/-- C7 (amended): when the loop guard does not fire (no last user
message, or similarity not strictly above 80) and `who` names an
existing helper (a non-empty name — an empty `who` is falsy in Python
and treated as absent) whose name is currently pending, `delegate`
returns the busy-refusal message and leaves the whole mixin state
unchanged: no new helper node and no new unit of work. -/
theorem delegate_busy_helper_refusal (st : DWState) (instructions : String)
    (w : String) (lum : Option String) (freshName taskResult : String)
    (hw : w ≠ "")
    (hh : st.helpers.contains w = true)
    (hp : (st.pending.map Prod.fst).contains w = true)
    (hguard : lum.elim false (fun g => ratioGtEighty instructions g) = false) :
    delegate instructions (some w) lum freshName taskResult st
      = (busyMsg w, st) := by
  have hmem : w ∈ st.helpers := by simpa using hh
  have hcond : (w != "" && st.helpers.contains w) = true := by
    simp [hmem, hw]
  simp only [delegate, hguard, hcond, hp]
  simp

/-- Witness for C7's amended theorem: a concrete busy "bob" with
dissimilar instructions. -/
theorem delegate_busy_helper_refusal_witness :
    delegate ("look up X") (some ("bob")) (some ("write a report"))
        ("fresh") ("t") ⟨⟨RunState.RUNNING, []⟩, [("bob")], [(("bob"), ("rb"))]⟩
      = (busyMsg ("bob"), ⟨⟨RunState.RUNNING, []⟩, [("bob")], [(("bob"), ("rb"))]⟩) :=
  delegate_busy_helper_refusal ⟨⟨RunState.RUNNING, []⟩, [("bob")], [(("bob"), ("rb"))]⟩
    ("look up X") ("bob") (some ("write a report")) ("fresh") ("t")
    (by decide) (by decide) (by decide) (by decide)

/-- Result of a `wait` call: either a reply string returned to the
tool-call loop, or the `ValueError` that `asyncio.wait` raises when
given an empty collection of futures. -/
inductive WaitRes where
  | reply (msg : String)
  | emptyErr
deriving DecidableEq, Repr

/-- The usage-error text (`delegate_and_wait.py` line 90). -/
def waitUsageMsg : String :=
  "The \"until\" param must be the name of a running helper, \"next\", or \"all\"."

/-- `f"{helper_name}:\n{result}"` (`delegate_and_wait.py` lines 100,
108, 116). -/
def fmtResult (helper_name result : String) : String :=
  helper_name ++ (":\n") ++ result

/-- The blank-line-delimited separator `"\n\n=====\n\n"`
(`delegate_and_wait.py` line 111). -/
def waitSep : String :=
  "\n\n=====\n\n"

/-- `DelegateWaitMixin.wait` (`delegate_and_wait.py` lines 80-116).
The two nondeterministic facts of an execution are passed in explicitly:
`pick` is the element `done.pop()` takes from the `FIRST_COMPLETED` done
set (constrained, in the theorems, to be some pending entry), and
`doneList` is the iteration order of the `ALL_COMPLETED` done set (a
Python `set` of tasks, whose iteration order is hash-table order — an
arbitrary permutation of the pending entries, unrelated to completion
times). Each branch mirrors the source: the usage check, then for
"next"/"all" a `WAITING` scope around `asyncio.wait` (which raises
`ValueError` inside the scope when pending is empty — the scope's
`finally` still restores the state), and for a named helper the
`pending.pop(name)` BEFORE the `WAITING` scope. -/
def wait (untl : String) (pick : String × String)
    (doneList : List (String × String)) (st : DWState) : WaitRes × DWState :=
  if !(st.pending.map Prod.fst).contains untl && untl != "next" && untl != "all" then
    (WaitRes.reply waitUsageMsg, st)
  else if untl = "next" then
    let (old, st1) := dwEnter RunState.WAITING st
    if st1.pending.isEmpty then
      (WaitRes.emptyErr, dwExit old st1)
    else
      let st2 := dwExit old st1
      (WaitRes.reply (fmtResult pick.1 pick.2),
       { st2 with pending := dictRemove pick.1 st2.pending })
  else if untl = "all" then
    let (old, st1) := dwEnter RunState.WAITING st
    if st1.pending.isEmpty then
      (WaitRes.emptyErr, dwExit old st1)
    else
      let st2 := dwExit old st1
      (WaitRes.reply
        (String.intercalate waitSep (doneList.map (fun p => fmtResult p.1 p.2))),
       { st2 with pending := [] })
  else
    let r := (st.pending.lookup untl).getD ("")
    let stP := { st with pending := dictRemove untl st.pending }
    let (old, st1) := dwEnter RunState.WAITING stP
    let st2 := dwExit old st1
    (WaitRes.reply (fmtResult untl r), st2)

/-- After removing a key from an association list whose keys are
distinct, that key no longer occurs among the keys. -/
theorem dictRemove_key_not_mem (k : String) (l : List (String × String))
    (hnd : (l.map Prod.fst).Nodup) : k ∉ (dictRemove k l).map Prod.fst := by
  induction l with
  | nil => simp [dictRemove]
  | cons p rest ih =>
    simp only [List.map_cons, List.nodup_cons] at hnd
    by_cases h : p.1 = k
    · subst h
      simp only [dictRemove, if_pos rfl]
      exact hnd.1
    · simp only [dictRemove, if_neg h, List.map_cons]
      intro hmem
      rcases List.mem_cons.mp hmem with h1 | h1
      · exact h h1.symm
      · exact ih hnd.2 h1

/-- Entries with a different key survive `dictRemove`. -/
theorem mem_dictRemove_of_ne (k : String) (q : String × String)
    (l : List (String × String)) (hq : q ∈ l) (hne : q.1 ≠ k) :
    q ∈ dictRemove k l := by
  induction l with
  | nil => cases hq
  | cons p rest ih =>
    rcases List.mem_cons.mp hq with h | h
    · subst h
      simp [dictRemove, hne]
    · by_cases hp : p.1 = k
      · simp only [dictRemove, if_pos hp]
        exact h
      · simp only [dictRemove, if_neg hp]
        exact List.mem_cons_of_mem _ (ih h)

/-- C6: `wait("next")` with some pending entry `pick` completed (the
element `done.pop()` returns): the call enters and leaves a `WAITING`
scope (two state-change events, state restored), returns the single
formatted `"<helperName>:\n<joinedText>"` block for `pick`, removes
exactly `pick`'s name from pending — every other pending entry
survives — and leaves the `helpers` map untouched. -/
theorem wait_next_consumes_one (st : DWState) (pick : String × String)
    (doneList : List (String × String))
    (hmem : pick ∈ st.pending)
    (hnd : (st.pending.map Prod.fst).Nodup) :
    (wait ("next") pick doneList st).1 = WaitRes.reply (fmtResult pick.1 pick.2)
    ∧ (wait ("next") pick doneList st).2.pending = dictRemove pick.1 st.pending
    ∧ pick.1 ∉ ((wait ("next") pick doneList st).2.pending.map Prod.fst)
    ∧ (∀ q ∈ st.pending, q.1 ≠ pick.1 → q ∈ (wait ("next") pick doneList st).2.pending)
    ∧ (wait ("next") pick doneList st).2.helpers = st.helpers
    ∧ (wait ("next") pick doneList st).2.k.state = st.k.state
    ∧ (wait ("next") pick doneList st).2.k.events
        = st.k.events ++ [Ev.stateChange RunState.WAITING, Ev.stateChange st.k.state] := by
  have hne : st.pending ≠ [] := by
    intro h
    rw [h] at hmem
    simp at hmem
  have hempty : st.pending.isEmpty = false := by
    cases hp : st.pending with
    | nil => exact absurd hp hne
    | cons a t => rfl
  have hwait : wait ("next") pick doneList st =
      (WaitRes.reply (fmtResult pick.1 pick.2),
       DWState.mk
         ⟨st.k.state, st.k.events ++ [Ev.stateChange RunState.WAITING, Ev.stateChange st.k.state]⟩
         st.helpers (dictRemove pick.1 st.pending)) := by
    simp [wait, hempty, hne, dwEnter, dwExit, setStateEnter, setStateExit]
  rw [hwait]
  refine ⟨rfl, rfl, ?_, ?_, rfl, rfl, rfl⟩
  · exact dictRemove_key_not_mem pick.1 st.pending hnd
  · intro q hq hneq
    exact mem_dictRemove_of_ne pick.1 q st.pending hq hneq

/-- Witness for C6: two pending helpers, "alice" completes first. -/
theorem wait_next_consumes_one_witness :
    (wait ("next") (("alice"), ("r1")) []
        ⟨⟨RunState.RUNNING, []⟩, [("alice"), ("bob")],
         [(("alice"), ("r1")), (("bob"), ("r2"))]⟩).1
      = WaitRes.reply (fmtResult ("alice") ("r1"))
    ∧ (wait ("next") (("alice"), ("r1")) []
        ⟨⟨RunState.RUNNING, []⟩, [("alice"), ("bob")],
         [(("alice"), ("r1")), (("bob"), ("r2"))]⟩).2.pending
      = [(("bob"), ("r2"))]
    ∧ (wait ("next") (("alice"), ("r1")) []
        ⟨⟨RunState.RUNNING, []⟩, [("alice"), ("bob")],
         [(("alice"), ("r1")), (("bob"), ("r2"))]⟩).2.helpers
      = [("alice"), ("bob")] := by
  have h := wait_next_consumes_one
    ⟨⟨RunState.RUNNING, []⟩, [("alice"), ("bob")],
     [(("alice"), ("r1")), (("bob"), ("r2"))]⟩
    (("alice"), ("r1")) [] (by decide) (by decide)
  refine ⟨h.1, ?_, h.2.2.2.2.1⟩
  rw [h.2.1]
  rfl

/-- C9: with an empty pending set, `wait("next")` and `wait("all")` both
pass the usage-error check (the literals "next" and "all" are always
accepted) and then raise `ValueError` from `asyncio.wait` on an empty
collection of futures — neither a formatted result nor a usage-guidance
string is returned. -/
theorem wait_empty_pending_raises (st : DWState) (pick : String × String)
    (doneList : List (String × String)) (h : st.pending = []) :
    (wait ("next") pick doneList st).1 = WaitRes.emptyErr
    ∧ (wait ("all") pick doneList st).1 = WaitRes.emptyErr
    ∧ (wait ("next") pick doneList st).1 ≠ WaitRes.reply waitUsageMsg
    ∧ (wait ("all") pick doneList st).1 ≠ WaitRes.reply waitUsageMsg := by
  refine ⟨?_, ?_, ?_, ?_⟩ <;> simp [wait, h, dwEnter, dwExit, setStateEnter, setStateExit]

/-- Witness for C9: a concrete mixin state with nothing pending. -/
theorem wait_empty_pending_raises_witness :
    (wait ("next") (("x"), ("y")) [] ⟨⟨RunState.STOPPED, []⟩, [], []⟩).1
      = WaitRes.emptyErr
    ∧ (wait ("all") (("x"), ("y")) [] ⟨⟨RunState.STOPPED, []⟩, [], []⟩).1
      = WaitRes.emptyErr :=
  ⟨(wait_empty_pending_raises ⟨⟨RunState.STOPPED, []⟩, [], []⟩
      (("x"), ("y")) [] rfl).1,
   (wait_empty_pending_raises ⟨⟨RunState.STOPPED, []⟩, [], []⟩
      (("x"), ("y")) [] rfl).2.1⟩

/-- C5 counterexample: the claim says `wait("all")`'s blocks are joined
"in the order the units of work completed". The code builds the reply by
iterating the `done` SET returned by
`asyncio.wait(..., return_when=asyncio.ALL_COMPLETED)`; a CPython set of
task objects iterates in hash-table (object-address) order, which is
unrelated to completion times, so the order below is an admissible
execution. With pending helpers alice and bob where alice's unit of work
completed FIRST and bob's SECOND, an execution whose done-set iteration
order is [bob, alice] replies with bob's block first — not the
completion order — while a completion-order reply would list alice
first. Both orders are permutations of the same pending set, so nothing
in the code ties the reply to completion order. -/
theorem wait_all_order_cex :
    [(("bob"), ("r2")), (("alice"), ("r1"))].Perm
      (⟨⟨RunState.RUNNING, []⟩, [("alice"), ("bob")],
        [(("alice"), ("r1")), (("bob"), ("r2"))]⟩ : DWState).pending
    ∧ (wait ("all") (("x"), ("y")) [(("bob"), ("r2")), (("alice"), ("r1"))]
        ⟨⟨RunState.RUNNING, []⟩, [("alice"), ("bob")],
         [(("alice"), ("r1")), (("bob"), ("r2"))]⟩).1
      = WaitRes.reply
          (String.intercalate waitSep [fmtResult ("bob") ("r2"), fmtResult ("alice") ("r1")])
    ∧ String.intercalate waitSep [fmtResult ("bob") ("r2"), fmtResult ("alice") ("r1")]
        ≠ String.intercalate waitSep [fmtResult ("alice") ("r1"), fmtResult ("bob") ("r2")] := by
  refine ⟨by decide, ?_, by decide⟩
  rfl

/-- C5 (amended): `wait("all")` with a non-empty pending set of n
helpers blocks under a `WAITING` scope until every pending unit of work
completes, then returns exactly n formatted
`"<helperName>:\n<joinedText>"` blocks — one per pending helper — joined
by the blank-line-delimited separator, in the iteration order of the
completed set (an arbitrary permutation of the pending set, not
necessarily completion order), and leaves pending empty with the run
state restored after the scope. -/
theorem wait_all_blocks_and_formats (st : DWState)
    (pick : String × String) (doneList : List (String × String))
    (hperm : doneList.Perm st.pending)
    (hne : st.pending ≠ []) :
    (wait ("all") pick doneList st).1
      = WaitRes.reply
          (String.intercalate waitSep (doneList.map (fun p => fmtResult p.1 p.2)))
    ∧ (doneList.map (fun p => fmtResult p.1 p.2)).length = st.pending.length
    ∧ (wait ("all") pick doneList st).2.pending = []
    ∧ (wait ("all") pick doneList st).2.helpers = st.helpers
    ∧ (wait ("all") pick doneList st).2.k.state = st.k.state
    ∧ (wait ("all") pick doneList st).2.k.events
        = st.k.events ++ [Ev.stateChange RunState.WAITING, Ev.stateChange st.k.state] := by
  have hempty : st.pending.isEmpty = false := by
    cases hp : st.pending with
    | nil => exact absurd hp hne
    | cons a t => rfl
  have hwait : wait ("all") pick doneList st =
      (WaitRes.reply
         (String.intercalate waitSep (doneList.map (fun p => fmtResult p.1 p.2))),
       DWState.mk
         ⟨st.k.state, st.k.events ++ [Ev.stateChange RunState.WAITING, Ev.stateChange st.k.state]⟩
         st.helpers []) := by
    simp [wait, hempty, hne, dwEnter, dwExit, setStateEnter, setStateExit]
  rw [hwait]
  exact ⟨rfl, by simp [hperm.length_eq], rfl, rfl, rfl, rfl⟩

/-- Witness for C5's amended theorem: three pending helpers, done-set
iteration order [carol, alice, bob]; three blocks come back, pending is
cleared. -/
theorem wait_all_blocks_and_formats_witness :
    (wait ("all") (("x"), ("y"))
        [(("carol"), ("r3")), (("alice"), ("r1")), (("bob"), ("r2"))]
        ⟨⟨RunState.RUNNING, []⟩, [("alice"), ("bob"), ("carol")],
         [(("alice"), ("r1")), (("bob"), ("r2")), (("carol"), ("r3"))]⟩).1
      = WaitRes.reply
          (String.intercalate waitSep
            [fmtResult ("carol") ("r3"), fmtResult ("alice") ("r1"), fmtResult ("bob") ("r2")])
    ∧ (wait ("all") (("x"), ("y"))
        [(("carol"), ("r3")), (("alice"), ("r1")), (("bob"), ("r2"))]
        ⟨⟨RunState.RUNNING, []⟩, [("alice"), ("bob"), ("carol")],
         [(("alice"), ("r1")), (("bob"), ("r2")), (("carol"), ("r3"))]⟩).2.pending
      = [] := by
  have h := wait_all_blocks_and_formats
    ⟨⟨RunState.RUNNING, []⟩, [("alice"), ("bob"), ("carol")],
     [(("alice"), ("r1")), (("bob"), ("r2")), (("carol"), ("r3"))]⟩
    (("x"), ("y"))
    [(("carol"), ("r3")), (("alice"), ("r1")), (("bob"), ("r2"))]
    (by decide) (by decide)
  exact ⟨h.1, h.2.2.1⟩

/-- The outcome of each awaited release in `Kanpai.close` (`app.py`
lines 87-95): `ok` if the awaited call returns, `error` if it raises
(carrying the exception's description). `dispatch_task.cancel()` is a
plain synchronous call that does not raise, so it has no entry here. -/
structure CloseB where
  engineClose : Except String Unit
  longEngineClose : Except String Unit
  browserClose : Except String Unit
  playwrightStop : Except String Unit
deriving Repr

/-- One awaited release inside `close`: a Python `await` either returns
and control flows to the continuation, or raises and the exception
propagates immediately (there is no try/finally in `close`). The release
counts as attempted in both cases. -/
def closeStep (att : List String) (rel : String) (r : Except String Unit)
    (rest : List String → List String × Except String Unit) :
    List String × Except String Unit :=
  match r with
  | Except.error e => (att ++ [rel], Except.error e)
  | Except.ok _ => rest (att ++ [rel])

/-- `Kanpai.close` (`app.py` lines 87-95): cancel the dispatch task,
then `await self.engine.close()`, `await self.long_engine.close()`,
`await self.browser.close()` if the browser was initialized, and
`await self.playwright.stop()` if playwright was initialized — straight
sequential awaits, each guarded only by the initialization checks.
Returns the ordered list of releases actually attempted and the call's
outcome. -/
def kanpaiClose (b : CloseB) (hasBrowser hasPlaywright : Bool) :
    List String × Except String Unit :=
  closeStep [("dispatch_task.cancel")] ("engine.close") b.engineClose (fun att =>
    closeStep att ("long_engine.close") b.longEngineClose (fun att =>
      if hasBrowser then
        closeStep att ("browser.close") b.browserClose (fun att =>
          if hasPlaywright then
            closeStep att ("playwright.stop") b.playwrightStop (fun att => (att, Except.ok ()))
          else (att, Except.ok ()))
      else
        if hasPlaywright then
          closeStep att ("playwright.stop") b.playwrightStop (fun att => (att, Except.ok ()))
        else (att, Except.ok ())))

/-- C8 counterexample: the claim says every release is attempted even if
an earlier one fails, with the failure surfaced only after all have been
attempted. But `close` has no exception handling: with the browser and
playwright initialized and `engine.close()` raising, the call propagates
the error immediately — `long_engine.close`, `browser.close` and
`playwright.stop` are never attempted. -/
theorem kanpai_close_short_circuits_cex :
    kanpaiClose ⟨Except.error ("boom"), Except.ok (), Except.ok (), Except.ok ()⟩ true true
      = ([("dispatch_task.cancel"), ("engine.close")], Except.error ("boom"))
    ∧ ("long_engine.close") ∉
        (kanpaiClose ⟨Except.error ("boom"), Except.ok (), Except.ok (), Except.ok ()⟩ true true).1
    ∧ ("browser.close") ∉
        (kanpaiClose ⟨Except.error ("boom"), Except.ok (), Except.ok (), Except.ok ()⟩ true true).1
    ∧ ("playwright.stop") ∉
        (kanpaiClose ⟨Except.error ("boom"), Except.ok (), Except.ok (), Except.ok ()⟩ true true).1 := by
  refine ⟨rfl, by decide, by decide, by decide⟩

/-- C8 (amended): `close()` attempts the releases strictly in order —
cancel the dispatch task, close the engine, close the long-context
engine, close the browser if initialized, stop playwright if
initialized. If every release succeeds, all are attempted in that order
and the call succeeds; the FIRST release that raises propagates its
error immediately and the remaining releases are NOT attempted. -/
theorem kanpai_close_sequential (b : CloseB) (e : String) :
    ((b.engineClose = Except.ok () → b.longEngineClose = Except.ok () →
      b.browserClose = Except.ok () → b.playwrightStop = Except.ok () →
      kanpaiClose b true true
        = ([("dispatch_task.cancel"), ("engine.close"), ("long_engine.close"),
            ("browser.close"), ("playwright.stop")], Except.ok ())))
    ∧ (b.engineClose = Except.error e → ∀ hasBrowser hasPlaywright,
        kanpaiClose b hasBrowser hasPlaywright
          = ([("dispatch_task.cancel"), ("engine.close")], Except.error e))
    ∧ (b.engineClose = Except.ok () → b.longEngineClose = Except.error e →
        ∀ hasBrowser hasPlaywright,
        kanpaiClose b hasBrowser hasPlaywright
          = ([("dispatch_task.cancel"), ("engine.close"), ("long_engine.close")],
             Except.error e))
    ∧ (b.engineClose = Except.ok () → b.longEngineClose = Except.ok () →
        b.browserClose = Except.error e →
        kanpaiClose b true true
          = ([("dispatch_task.cancel"), ("engine.close"), ("long_engine.close"),
              ("browser.close")], Except.error e)) := by
  refine ⟨?_, ?_, ?_, ?_⟩
  · intro h1 h2 h3 h4
    simp [kanpaiClose, closeStep, h1, h2, h3, h4]
  · intro h1 hasBrowser hasPlaywright
    simp [kanpaiClose, closeStep, h1]
  · intro h1 h2 hasBrowser hasPlaywright
    simp [kanpaiClose, closeStep, h1, h2]
  · intro h1 h2 h3
    simp [kanpaiClose, closeStep, h1, h2, h3]

/-- Witness for C8's amended theorem: concrete all-success and
long-engine-failure runs. -/
theorem kanpai_close_sequential_witness :
    kanpaiClose ⟨Except.ok (), Except.ok (), Except.ok (), Except.ok ()⟩ true true
      = ([("dispatch_task.cancel"), ("engine.close"), ("long_engine.close"),
          ("browser.close"), ("playwright.stop")], Except.ok ())
    ∧ kanpaiClose ⟨Except.ok (), Except.error ("closed"), Except.ok (), Except.ok ()⟩ true true
      = ([("dispatch_task.cancel"), ("engine.close"), ("long_engine.close")],
         Except.error ("closed")) :=
  ⟨(kanpai_close_sequential
      ⟨Except.ok (), Except.ok (), Except.ok (), Except.ok ()⟩ ("x")).1
      rfl rfl rfl rfl,
   (kanpai_close_sequential
      ⟨Except.ok (), Except.error ("closed"), Except.ok (), Except.ok ()⟩ ("closed")).2.2.1
      rfl rfl true true⟩

/-- A function call attached to a completion message (kani's
`FunctionCall`, trimmed to name and argument payload). -/
structure FunctionCall where
  name : String
  arguments : String
deriving DecidableEq, Repr

/-- A completion message, trimmed to the fields
`BaseKani.get_model_completion` touches. -/
structure KMessage where
  content : Option String
  function_call : Option FunctionCall
deriving DecidableEq, Repr

/-- A kani `Completion`. -/
structure Completion where
  message : KMessage
  prompt_tokens : Nat
  completion_tokens : Nat
deriving DecidableEq, Repr

/-- `function_call.name.startswith("functions.")`, computed on the
character list so concrete instances reduce in the kernel. -/
def hasFunctionsDotNs (s : String) : Bool :=
  ("functions.").data.isPrefixOf s.data

/-- `function_call.name.removeprefix("functions.")` for a name that the
guard already found to carry the prefix: drop its ten characters. -/
def stripFunctionsDotNs (s : String) : String :=
  ⟨s.data.drop (("functions.").data.length)⟩

/-- `BaseKani.get_model_completion` (`base_kani.py` lines 48-63) after
the inner engine call returned `completion`: dispatch a `TokensUsed`
event with the completion's token counts, then — if the message carries
a function call whose name starts with `"functions."` — rebuild the
completion with the prefix stripped from the function-call name
(`copy_with` keeps every other message field, and the token counts are
passed through); otherwise return the completion unchanged. Returns the
resulting completion and the dispatched events. -/
def get_model_completion (completion : Completion) : Completion × List Ev :=
  let evs := [Ev.tokensUsed completion.prompt_tokens completion.completion_tokens]
  let message := completion.message
  match message.function_call with
  | some function_call =>
    if hasFunctionsDotNs function_call.name then
      let fixed_name := stripFunctionsDotNs function_call.name
      (Completion.mk
        (KMessage.mk message.content (some (FunctionCall.mk fixed_name function_call.arguments)))
        completion.prompt_tokens completion.completion_tokens, evs)
    else (completion, evs)
  | none => (completion, evs)

/-- C10: `get_model_completion` always dispatches exactly one
token-usage event carrying the completion's prompt and completion token
counts; the returned completion keeps the token counts and the message
content; when the message carries a function call whose name starts with
`"functions."` the returned function-call name has that prefix removed
(arguments kept); and when it does not (no function call, or a name
without the prefix) the completion is returned unmodified. -/
theorem get_model_completion_spec_thm (c : Completion) :
    ((get_model_completion c).2
      = [Ev.tokensUsed c.prompt_tokens c.completion_tokens])
    ∧ ((get_model_completion c).1.prompt_tokens = c.prompt_tokens)
    ∧ ((get_model_completion c).1.completion_tokens = c.completion_tokens)
    ∧ ((get_model_completion c).1.message.content = c.message.content)
    ∧ (∀ fc, c.message.function_call = some fc → hasFunctionsDotNs fc.name = true →
        (get_model_completion c).1.message.function_call
          = some (FunctionCall.mk (stripFunctionsDotNs fc.name) fc.arguments))
    ∧ ((match c.message.function_call with
        | some fc => hasFunctionsDotNs fc.name = false
        | none => True) → (get_model_completion c).1 = c) := by
  rcases c with ⟨⟨content, function_call⟩, p, q⟩
  cases function_call with
  | none =>
    refine ⟨rfl, rfl, rfl, rfl, ?_, ?_⟩
    · intro fc h
      cases h
    · intro _
      rfl
  | some fc =>
    cases hb : hasFunctionsDotNs fc.name with
    | true =>
      refine ⟨?_, ?_, ?_, ?_, ?_, ?_⟩
      · simp [get_model_completion, hb]
      · simp [get_model_completion, hb]
      · simp [get_model_completion, hb]
      · simp [get_model_completion, hb]
      · intro fc' hfc' _
        have hfc : fc = fc' := by
          simpa using hfc'
        subst hfc
        simp [get_model_completion, hb]
      · intro hfalse
        exact absurd (show hasFunctionsDotNs fc.name = false from hfalse) (by simp [hb])
    | false =>
      refine ⟨?_, ?_, ?_, ?_, ?_, ?_⟩
      · simp [get_model_completion, hb]
      · simp [get_model_completion, hb]
      · simp [get_model_completion, hb]
      · simp [get_model_completion, hb]
      · intro fc' hfc' hpre
        have hfc : fc = fc' := by
          simpa using hfc'
        subst hfc
        rw [hb] at hpre
        simp at hpre
      · intro _
        simp [get_model_completion, hb]

/-- Witness for C10: a borked OpenAI function call named
`"functions.search"` comes back named `"search"` with content, arguments
and token counts unchanged, and the token-usage event is dispatched. -/
theorem get_model_completion_spec_witness :
    (get_model_completion
        (Completion.mk (KMessage.mk (some ("hi")) (some (FunctionCall.mk ("functions.search") ("args"))))
          7 3)).1.message.function_call
      = some (FunctionCall.mk ("search") ("args"))
    ∧ (get_model_completion
        (Completion.mk (KMessage.mk (some ("hi")) (some (FunctionCall.mk ("functions.search") ("args"))))
          7 3)).2
      = [Ev.tokensUsed 7 3] := by
  have h := get_model_completion_spec_thm
    (Completion.mk (KMessage.mk (some ("hi")) (some (FunctionCall.mk ("functions.search") ("args")))) 7 3)
  refine ⟨?_, h.1⟩
  have h5 := h.2.2.2.2.1 (FunctionCall.mk ("functions.search") ("args")) rfl (by decide)
  rw [h5]
  have : stripFunctionsDotNs ("functions.search") = ("search") := by decide
  rw [this]
